import Mathlib

/-!
Verification of the Goal Allocation & Projection Engine of SpendAI.

The engine lives in the frontend sources:
* GoalAllocator.tsx, handleCalculate: goal sorting, sequential funding
  simulation ("waterfall"), per-goal deadline evaluation, and the verdict.
* GoalSummary.tsx, calculateAllocation (AutoAllocateModal): the greedy
  lump-sum allocator.
* chat/page.tsx, handleAutoAllocateConfirm: the commit phase that applies a
  lump-sum plan item by item.

Modelling conventions:
* Money is ℚ (the code uses JS numbers; the claims are about the exact
  arithmetic of the algorithms, not floating-point rounding).
* Calendar dates are ℤ, a period-indexed timeline: the engine only ever uses
  dates through date-fns addMonths/addYears and
  differenceInMonths/differenceInYears in the single configured frequency
  unit, so addMonths/addYears become addition of a period count and the
  difference functions become subtraction.  Invalid or absent deadlines are
  both modelled as none, matching the guard
  `if (deadlineDate && isValid(deadlineDate))`.
* The JS Map keyed by goal id becomes an association list (simulation) or a
  function update (allocator balances); goal ids are unique per the data
  model, which theorems assume where the map lookups need it.
* React state updates become explicit state-record transformers.
-/

namespace SpendAI

/-- A goal snapshot as consumed by the engine (GoalResponse fields the
algorithms read).  The deadline is the parsed date on the period timeline,
none when absent or invalid; priority is the optional integer priority. -/
structure Goal where
  id : String
  name : String
  targetAmount : ℚ
  currentAmount : ℚ
  deadline : Option ℤ
  priority : Option ℤ

/-- Derived remaining amount, Math.max(0, targetAmount - currentAmount). -/
def remaining (g : Goal) : ℚ :=
  max 0 (g.targetAmount - g.currentAmount)

/-- Comparator body shared by the deadline branch ties: priority (absent
becomes the 999 sentinel, `a.priority ?? 999`), then remaining amount.
Mirrors the tail of the sort comparator in GoalAllocator.tsx handleCalculate
(the comparator in GoalSummary.tsx calculateAllocation returns
`remainingA - remainingB` for the last key, which induces this same
Ordering). -/
def comparePriorityRemaining (a b : Goal) : Ordering :=
  let priorityA := a.priority.getD 999
  let priorityB := b.priority.getD 999
  if priorityA < priorityB then .lt
  else if priorityB < priorityA then .gt
  else
    let remainingA := remaining a
    let remainingB := remaining b
    if remainingA < remainingB then .lt
    else if remainingB < remainingA then .gt
    else .eq

/-- The sort comparator of GoalAllocator.tsx handleCalculate: deadline
presence and value first (goals with a deadline before goals without;
earlier deadline first), then priority, then remaining amount. -/
def compareGoals (a b : Goal) : Ordering :=
  match a.deadline, b.deadline with
  | some deadlineA, some deadlineB =>
    if deadlineA < deadlineB then .lt
    else if deadlineB < deadlineA then .gt
    else comparePriorityRemaining a b
  | some _, none => .lt
  | none, some _ => .gt
  | none, none => comparePriorityRemaining a b

/-- Boolean "a may stay before b" relation induced by the comparator: a JS
stable sort keeps a before b exactly when the comparator does not return a
positive number. -/
def goalLE (a b : Goal) : Bool :=
  !(compareGoals a b == Ordering.gt)

/-- The sort `[...goals].sort(comparator)`: a stable sort by the comparator,
modelled with the verified stable mergeSort. -/
def sortGoals (goals : List Goal) : List Goal :=
  goals.mergeSort goalLE

/-- One step of the sequential funding simulator (the loop body of step 2 of
handleCalculate), walking the sorted goals with the running cumulative
period counter.  Epoch values are Option ℕ with none as the Infinity
sentinel ("unreachable with current savings"). -/
def simulateAux (savingsPerPeriod : ℚ) :
    List Goal → ℕ → List (String × Option ℕ)
  | [], _ => []
  | goal :: rest, cumulativePeriodsElapsed =>
    let amountNeeded := remaining goal
    if amountNeeded ≤ 0 then
      (goal.id, some 0) :: simulateAux savingsPerPeriod rest cumulativePeriodsElapsed
    else if savingsPerPeriod ≤ 0 then
      (goal.id, none) :: simulateAux savingsPerPeriod rest cumulativePeriodsElapsed
    else
      let periodsForThisGoal := (⌈amountNeeded / savingsPerPeriod⌉).toNat
      (goal.id, some (cumulativePeriodsElapsed + periodsForThisGoal)) ::
        simulateAux savingsPerPeriod rest (cumulativePeriodsElapsed + periodsForThisGoal)

/-- The sequential funding simulator: cumulative counter starts at 0. -/
def simulate (sortedGoals : List Goal) (savingsPerPeriod : ℚ) :
    List (String × Option ℕ) :=
  simulateAux savingsPerPeriod sortedGoals 0

/-- date-fns addMonths/addYears on the period timeline. -/
def addPeriods (d : ℤ) (n : ℕ) : ℤ := d + n

/-- date-fns differenceInMonths/differenceInYears on the period timeline. -/
def periodsBetween (a b : ℤ) : ℤ := a - b

/-- The requiredPerPeriod value: a finite amount or the Infinity sentinel. -/
inductive RequiredRate where
  | amount (q : ℚ)
  | infinite
deriving DecidableEq

/-- The timeDifference display label, as a tagged value instead of the
formatted string. -/
inductive TimeDiff where
  | onTime
  | ahead (n : ℕ)
  | behind (n : ℕ)
  | projectedMiss
  | completes
  | notApplicable
deriving DecidableEq

/-- One per-goal projection row (the AllocationResult record of
GoalAllocator.tsx, without the display-only statusIcon). -/
structure AllocationResult where
  goalId : String
  goalName : String
  requiredPerPeriod : Option RequiredRate
  projectedPeriods : Option ℕ
  projectedDate : Option ℤ
  deadline : Option ℤ
  deadlineMet : Option Bool
  timeDifference : TimeDiff

/-- Step 3 of handleCalculate for one goal: look up the simulated completion
epoch, project a completion date, compare against the optional deadline and
compute the stand-alone required rate. -/
def evaluateGoal (now : ℤ) (goalCompletionPeriods : List (String × Option ℕ))
    (goal : Goal) : AllocationResult :=
  let completedPeriod := goalCompletionPeriods.lookup goal.id
  let projectedPeriods : Option ℕ :=
    match completedPeriod with
    | some (some n) => some n
    | _ => none
  let projectedDate : Option ℤ :=
    match projectedPeriods with
    | some n => some (addPeriods now n)
    | none => none
  match goal.deadline with
  | some deadlineDate =>
    let deadlineMetInitial : Bool :=
      match projectedDate with
      | some pd => decide (pd ≤ deadlineDate)
      | none => false
    let timeDifference : TimeDiff :=
      match projectedDate with
      | some pd =>
        let diffPeriods := periodsBetween deadlineDate pd
        if 0 ≤ diffPeriods then
          if diffPeriods = 0 then .onTime else .ahead diffPeriods.toNat
        else .behind (-diffPeriods).toNat
      | none => .projectedMiss
    let periodsToDeadline := periodsBetween deadlineDate now
    let requiredPerPeriod : RequiredRate :=
      if 0 < periodsToDeadline then
        .amount (remaining goal / (periodsToDeadline : ℚ))
      else if goal.currentAmount < goal.targetAmount then .infinite
      else .amount 0
    { goalId := goal.id
      goalName := goal.name
      requiredPerPeriod := some requiredPerPeriod
      projectedPeriods := projectedPeriods
      projectedDate := projectedDate
      deadline := some deadlineDate
      deadlineMet := some deadlineMetInitial
      timeDifference := timeDifference }
  | none =>
    { goalId := goal.id
      goalName := goal.name
      requiredPerPeriod := none
      projectedPeriods := projectedPeriods
      projectedDate := projectedDate
      deadline := none
      deadlineMet := none
      timeDifference :=
        match projectedDate with
        | some _ => .completes
        | none => .notApplicable }

/-- The aggregate feasibility verdict. -/
structure Verdict where
  allMetOnTime : Bool
  additionalSavingsNeeded : Option ℚ
deriving DecidableEq

/-- Step 4 of handleCalculate: allMetOnTime unless some result has
deadlineMet === false; when not all met, sum the finite non-null
requiredPerPeriod values and report the shortfall over the savings rate. -/
def computeVerdict (results : List AllocationResult) (savingsPerPeriod : ℚ) :
    Verdict :=
  let allMetOnTime := !(results.any fun r => r.deadlineMet == some false)
  let calculatedShortfall : ℚ :=
    if allMetOnTime then 0
    else
      let totalRequiredForAllDeadlines := results.foldl
        (fun sum r =>
          match r.requiredPerPeriod with
          | some (.amount q) => sum + q
          | _ => sum) 0
      max 0 (totalRequiredForAllDeadlines - savingsPerPeriod)
  { allMetOnTime := allMetOnTime
    additionalSavingsNeeded := if allMetOnTime then none else some calculatedShortfall }

/-- The projection pipeline of handleCalculate: validation, sort, simulate,
evaluate each input goal (in input order), aggregate.  none is the
early-return on the alert path (missing or non-positive savings amount). -/
def handleCalculate (now : ℤ) (goals : List Goal) (savingsAmount : Option ℚ) :
    Option (List AllocationResult × Verdict) :=
  match savingsAmount with
  | none => none
  | some amt =>
    if amt ≤ 0 then none
    else
      let savingsPerPeriod := amt
      let sortedGoals := sortGoals goals
      let goalCompletionPeriods := simulate sortedGoals savingsPerPeriod
      let results := goals.map (evaluateGoal now goalCompletionPeriods)
      some (results, computeVerdict results savingsPerPeriod)

/-- React state of the GoalAllocator component (the fields handleCalculate
reads or writes). -/
structure AllocatorState where
  goals : List Goal
  savingsAmount : Option ℚ
  allocationResults : Option (List AllocationResult)
  verdict : Option Verdict
  isCalculating : Bool

/-- handleCalculate as a state transformer: on the alert path nothing is
written; otherwise the results and verdict state are set. -/
def handleCalculateState (now : ℤ) (s : AllocatorState) : AllocatorState :=
  match handleCalculate now s.goals s.savingsAmount with
  | none => s
  | some (results, finalVerdict) =>
    { s with
      allocationResults := some results
      verdict := some finalVerdict
      isCalculating := false }

/-- One lump-sum plan row (AllocationPlanItem of GoalSummary.tsx). -/
structure AllocationPlanItem where
  goalId : String
  goalName : String
  amountToAllocate : ℚ
  currentAmount : ℚ
  targetAmount : ℚ
deriving DecidableEq

/-- The greedy loop of calculateAllocation, carrying the currentBalances map
(modelled as a function from goal id to balance) and the undistributed pool. -/
def allocateAux : List Goal → (String → ℚ) → ℚ → List AllocationPlanItem
  | [], _, _ => []
  | goal :: rest, currentBalances, remainingToAllocate =>
    let currentBalance := currentBalances goal.id
    let amountNeeded := max 0 (goal.targetAmount - currentBalance)
    if 0 < amountNeeded ∧ 0 < remainingToAllocate then
      let allocated := min amountNeeded remainingToAllocate
      { goalId := goal.id, goalName := goal.name, amountToAllocate := allocated,
        currentAmount := goal.currentAmount, targetAmount := goal.targetAmount } ::
        allocateAux rest
          (fun i => if i = goal.id then currentBalance + allocated else currentBalances i)
          (remainingToAllocate - allocated)
    else
      { goalId := goal.id, goalName := goal.name, amountToAllocate := 0,
        currentAmount := goal.currentAmount, targetAmount := goal.targetAmount } ::
        allocateAux rest currentBalances remainingToAllocate

/-- The initial currentBalances map,
`new Map(goals.map((g) => [g.id, g.currentAmount]))` with default 0
(`currentBalances.get(goal.id) ?? 0`). -/
def initialBalances (goals : List Goal) : String → ℚ :=
  fun i => (((goals.map fun g => (g.id, g.currentAmount)).lookup i).getD 0)

/-- React state of the AutoAllocateModal (the fields calculateAllocation
reads or writes). -/
structure ModalState where
  goals : List Goal
  amountSaved : Option ℚ
  allocationPlan : Option (List AllocationPlanItem)
  showConfirmation : Bool

/-- calculateAllocation of GoalSummary.tsx as a state transformer: on
invalid input (missing or non-positive amount, or no goals) the plan state
is set to the empty list and the function returns; otherwise the goals are
sorted, the greedy pass runs, and the confirmation view is shown. -/
def calculateAllocation (s : ModalState) : ModalState :=
  match s.amountSaved with
  | none => { s with allocationPlan := some [] }
  | some amountSaved =>
    if amountSaved ≤ 0 ∨ s.goals.length = 0 then { s with allocationPlan := some [] }
    else
      { s with
        allocationPlan :=
          some (allocateAux (sortGoals s.goals) (initialBalances s.goals) amountSaved)
        showConfirmation := true }

/-- Outcome of one settled add-contribution request in
handleAutoAllocateConfirm: fulfilled with a success value, fulfilled with a
server-action error object (optional error string), or rejected (optional
reason message). -/
inductive SettledResult where
  | fulfilledOk
  | fulfilledError (error : Option String)
  | rejected (message : Option String)
deriving DecidableEq

/-- The aggregate the commit loop accumulates. -/
structure CommitSummary where
  successCount : ℕ
  errorCount : ℕ
  firstErrorMessage : String
deriving DecidableEq

/-- One iteration of the results.forEach loop of handleAutoAllocateConfirm:
count the outcome and record the first failure message (the
`if (!firstErrorMessage)` guard, empty string meaning unset). -/
def commitStep (acc : CommitSummary) (r : SettledResult) : CommitSummary :=
  match r with
  | .fulfilledOk => { acc with successCount := acc.successCount + 1 }
  | .fulfilledError e =>
    { acc with
      errorCount := acc.errorCount + 1
      firstErrorMessage :=
        if acc.firstErrorMessage = "" then e.getD "Unknown allocation error."
        else acc.firstErrorMessage }
  | .rejected m =>
    { acc with
      errorCount := acc.errorCount + 1
      firstErrorMessage :=
        if acc.firstErrorMessage = "" then
          m.getD "Network or unexpected error during allocation."
        else acc.firstErrorMessage }

/-- The whole forEach loop over the settled results, starting from zero
counts and no recorded message. -/
def processSettled (rs : List SettledResult) : CommitSummary :=
  rs.foldl commitStep ⟨0, 0, ""⟩

/-- The requests issued by handleAutoAllocateConfirm,
`allocationPlan.map((item) => addContributionToAction(item.goalId,
item.amountToAllocate))`: one request per plan item. -/
def issuedRequests (plan : List AllocationPlanItem) : List (String × ℚ) :=
  plan.map fun item => (item.goalId, item.amountToAllocate)

/-! Sort-order machinery: the comparator realises a lexicographic linear
order on an explicit key, which gives transitivity and totality of the
boolean relation the stable sort consumes. -/

lemma remaining_nonneg (g : Goal) : 0 ≤ remaining g := le_max_left _ _

lemma remaining_le_zero_iff (g : Goal) : remaining g ≤ 0 ↔ remaining g = 0 :=
  ⟨fun h => le_antisymm h (remaining_nonneg g), fun h => h.le⟩

/-- First sort key: deadline presence, 0 when a deadline exists and 1 when
not, so that goals with a deadline sort first. -/
def deadlinePresenceKey (g : Goal) : ℤ :=
  match g.deadline with
  | some _ => 0
  | none => 1

/-- Second sort key: the deadline value (0 for goals without one; the first
key already separates those). -/
def deadlineValueKey (g : Goal) : ℤ := g.deadline.getD 0

/-- Third sort key: the priority with the 999 sentinel for an absent
priority, exactly `a.priority ?? 999`. -/
def priorityKey (g : Goal) : ℤ := g.priority.getD 999

/-- The full lexicographic sort key realised by the comparator. -/
def sortKey (g : Goal) : ℤ ×ₗ ℤ ×ₗ ℤ ×ₗ ℚ :=
  toLex (deadlinePresenceKey g,
    toLex (deadlineValueKey g, toLex (priorityKey g, remaining g)))

lemma comparePR_lt_iff (a b : Goal) :
    comparePriorityRemaining a b = .lt ↔
      priorityKey a < priorityKey b ∨
        priorityKey a = priorityKey b ∧ remaining a < remaining b := by
  simp only [comparePriorityRemaining, priorityKey]
  split_ifs with h1 h2 h3 h4 <;> simp_all <;>
    first
      | omega
      | (exact ⟨by omega, by linarith⟩)
      | (intro _ h; linarith)
      | (intro _; linarith)
      | linarith

lemma comparePR_gt_iff (a b : Goal) :
    comparePriorityRemaining a b = .gt ↔
      priorityKey b < priorityKey a ∨
        priorityKey b = priorityKey a ∧ remaining b < remaining a := by
  simp only [comparePriorityRemaining, priorityKey]
  split_ifs with h1 h2 h3 h4 <;> simp_all <;>
    first
      | omega
      | (exact ⟨by omega, by linarith⟩)
      | (intro _ h; linarith)
      | (intro _; linarith)
      | linarith

lemma comparePR_eq_iff (a b : Goal) :
    comparePriorityRemaining a b = .eq ↔
      priorityKey a = priorityKey b ∧ remaining a = remaining b := by
  simp only [comparePriorityRemaining, priorityKey]
  split_ifs with h1 h2 h3 h4 <;> simp_all <;>
    first
      | omega
      | (exact ⟨by omega, by linarith⟩)
      | (intro _ h; linarith)
      | (intro _; linarith)
      | linarith

lemma compareGoals_lt_iff (a b : Goal) :
    compareGoals a b = .lt ↔ sortKey a < sortKey b := by
  cases hda : a.deadline with
  | none =>
    cases hdb : b.deadline with
    | none =>
      simp [compareGoals, sortKey, deadlinePresenceKey, deadlineValueKey,
        hda, hdb, Prod.Lex.lt_iff, comparePR_lt_iff]
    | some db =>
      simp [compareGoals, sortKey, deadlinePresenceKey, deadlineValueKey,
        hda, hdb, Prod.Lex.lt_iff]
  | some da =>
    cases hdb : b.deadline with
    | none =>
      simp [compareGoals, sortKey, deadlinePresenceKey, deadlineValueKey,
        hda, hdb, Prod.Lex.lt_iff]
    | some db =>
      simp only [compareGoals, sortKey, deadlinePresenceKey, deadlineValueKey,
        hda, hdb, Option.getD_some, Prod.Lex.lt_iff]
      split_ifs with h1 h2
      · simp [h1]
      · constructor
        · intro h; exact absurd h (by simp)
        · intro h
          rcases h with h | ⟨h, _⟩ <;> omega
      · have hdd : da = db := by omega
        subst hdd
        simp [comparePR_lt_iff, Prod.Lex.lt_iff]

lemma compareGoals_gt_iff (a b : Goal) :
    compareGoals a b = .gt ↔ sortKey b < sortKey a := by
  cases hda : a.deadline with
  | none =>
    cases hdb : b.deadline with
    | none =>
      simp [compareGoals, sortKey, deadlinePresenceKey, deadlineValueKey,
        hda, hdb, Prod.Lex.lt_iff, comparePR_gt_iff]
    | some db =>
      simp [compareGoals, sortKey, deadlinePresenceKey, deadlineValueKey,
        hda, hdb, Prod.Lex.lt_iff]
  | some da =>
    cases hdb : b.deadline with
    | none =>
      simp [compareGoals, sortKey, deadlinePresenceKey, deadlineValueKey,
        hda, hdb, Prod.Lex.lt_iff]
    | some db =>
      simp only [compareGoals, sortKey, deadlinePresenceKey, deadlineValueKey,
        hda, hdb, Option.getD_some, Prod.Lex.lt_iff]
      split_ifs with h1 h2
      · constructor
        · intro h; exact absurd h (by simp)
        · intro h
          rcases h with h | ⟨h, _⟩ <;> omega
      · simp [h2]
      · have hdd : da = db := by omega
        subst hdd
        simp [comparePR_gt_iff, Prod.Lex.lt_iff]

lemma compareGoals_eq_iff (a b : Goal) :
    compareGoals a b = .eq ↔ sortKey a = sortKey b := by
  cases hda : a.deadline with
  | none =>
    cases hdb : b.deadline with
    | none =>
      simp [compareGoals, sortKey, deadlinePresenceKey, deadlineValueKey,
        hda, hdb, toLex_inj, Prod.ext_iff, comparePR_eq_iff]
    | some db =>
      simp [compareGoals, sortKey, deadlinePresenceKey, deadlineValueKey,
        hda, hdb, toLex_inj, Prod.ext_iff]
  | some da =>
    cases hdb : b.deadline with
    | none =>
      simp [compareGoals, sortKey, deadlinePresenceKey, deadlineValueKey,
        hda, hdb, toLex_inj, Prod.ext_iff]
    | some db =>
      simp only [compareGoals, sortKey, deadlinePresenceKey, deadlineValueKey,
        hda, hdb, Option.getD_some, toLex_inj, Prod.ext_iff]
      split_ifs with h1 h2
      · constructor
        · intro h; exact absurd h (by simp)
        · intro h; omega
      · constructor
        · intro h; exact absurd h (by simp)
        · intro h; omega
      · have hdd : da = db := by omega
        subst hdd
        simp [comparePR_eq_iff, toLex_inj, Prod.ext_iff]

lemma goalLE_iff (a b : Goal) : goalLE a b = true ↔ sortKey a ≤ sortKey b := by
  unfold goalLE
  cases hx : compareGoals a b with
  | lt =>
    simp [le_of_lt ((compareGoals_lt_iff a b).mp hx)]
    rfl
  | eq =>
    simp [le_of_eq ((compareGoals_eq_iff a b).mp hx)]
    rfl
  | gt =>
    simp [not_le.mpr ((compareGoals_gt_iff a b).mp hx)]
    rfl

lemma goalLE_trans : ∀ (a b c : Goal),
    goalLE a b = true → goalLE b c = true → goalLE a c = true := by
  intro a b c hab hbc
  rw [goalLE_iff] at *
  exact le_trans hab hbc

lemma goalLE_total : ∀ (a b : Goal), (goalLE a b || goalLE b a) = true := by
  intro a b
  rcases le_total (sortKey a) (sortKey b) with h | h
  · simp [(goalLE_iff a b).mpr h]
  · simp [(goalLE_iff b a).mpr h]

lemma sortGoals_perm (goals : List Goal) : (sortGoals goals).Perm goals :=
  List.mergeSort_perm goals goalLE

lemma sortGoals_sorted (goals : List Goal) :
    (sortGoals goals).Pairwise (fun a b => goalLE a b = true) :=
  List.sorted_mergeSort goalLE_trans goalLE_total goals

lemma sortGoals_stable {a b : Goal} {goals : List Goal}
    (hsub : [a, b].Sublist goals) (hle : goalLE a b = true) :
    [a, b].Sublist (sortGoals goals) :=
  List.sublist_mergeSort goalLE_trans goalLE_total
    (by simp [List.pairwise_cons, hle]) hsub

lemma sortGoals_pair {a b : Goal} (hle : goalLE a b = true) :
    sortGoals [a, b] = [a, b] := by
  have hsub : [a, b].Sublist (sortGoals [a, b]) :=
    sortGoals_stable (List.Sublist.refl _) hle
  have hlen : ([a, b] : List Goal).length = (sortGoals [a, b]).length := by
    simpa using (sortGoals_perm [a, b]).length_eq.symm
  exact (hsub.eq_of_length hlen).symm

/-! Simulator closed form: the recursive walk equals an explicit per-index
formula over prefix sums of per-goal period costs. -/

/-- Periods one goal adds to the cumulative counter: zero for an already-met
goal and zero when the rate is non-positive (those branches do not advance
the counter), otherwise the ceiling of remaining over the rate. -/
def goalCost (savingsPerPeriod : ℚ) (g : Goal) : ℕ :=
  if 0 < remaining g ∧ 0 < savingsPerPeriod then
    (⌈remaining g / savingsPerPeriod⌉).toNat
  else 0

/-- Value of the cumulative period counter after the first i goals of the
walked list. -/
def cumulativeAt (goals : List Goal) (savingsPerPeriod : ℚ) (i : ℕ) : ℕ :=
  ((goals.take i).map (goalCost savingsPerPeriod)).sum

lemma cumulativeAt_zero (goals : List Goal) (rate : ℚ) :
    cumulativeAt goals rate 0 = 0 := by
  simp [cumulativeAt]

lemma cumulativeAt_cons_succ (g : Goal) (rest : List Goal) (rate : ℚ) (i : ℕ) :
    cumulativeAt (g :: rest) rate (i + 1) =
      goalCost rate g + cumulativeAt rest rate i := by
  simp [cumulativeAt]

lemma cumulativeAt_succ (goals : List Goal) (rate : ℚ) (i : ℕ) :
    cumulativeAt goals rate (i + 1) =
      cumulativeAt goals rate i +
        (match goals[i]? with
         | some g => goalCost rate g
         | none => 0) := by
  unfold cumulativeAt
  rw [List.take_succ]
  cases hg : goals[i]? <;> simp [hg]

lemma cumulativeAt_mono (goals : List Goal) (rate : ℚ) {i j : ℕ} (h : i ≤ j) :
    cumulativeAt goals rate i ≤ cumulativeAt goals rate j := by
  unfold cumulativeAt
  have htake : goals.take i = (goals.take j).take i := by
    rw [List.take_take, min_eq_left h]
  rw [htake]
  conv_rhs => rw [← List.take_append_drop i (goals.take j)]
  rw [List.map_append, List.sum_append]
  exact Nat.le_add_right _ _

lemma simulateAux_cons (rate : ℚ) (g : Goal) (rest : List Goal) (c : ℕ) :
    simulateAux rate (g :: rest) c =
      (g.id,
        if remaining g ≤ 0 then some 0
        else if rate ≤ 0 then none
        else some (c + goalCost rate g)) ::
      simulateAux rate rest (c + goalCost rate g) := by
  by_cases h1 : remaining g ≤ 0
  · have hc : goalCost rate g = 0 := by
      simp [goalCost, (remaining_le_zero_iff g).mp h1]
    simp [simulateAux, h1, hc]
  · by_cases h2 : rate ≤ 0
    · have hc : goalCost rate g = 0 := by
        simp [goalCost, not_lt.mpr h2]
      simp [simulateAux, h1, h2, hc]
    · have hc : goalCost rate g = (⌈remaining g / rate⌉).toNat := by
        simp [goalCost, not_le.mp h1, not_le.mp h2]
      simp [simulateAux, h1, h2, hc]

lemma simulateAux_getElem (rate : ℚ) (goals : List Goal) (c i : ℕ) :
    (simulateAux rate goals c)[i]? =
      goals[i]?.map fun g =>
        (g.id,
          if remaining g ≤ 0 then some 0
          else if rate ≤ 0 then none
          else some (c + cumulativeAt goals rate i + goalCost rate g)) := by
  induction goals generalizing c i with
  | nil => simp [simulateAux]
  | cons g rest ih =>
    rw [simulateAux_cons]
    cases i with
    | zero => simp [cumulativeAt_zero]
    | succ i =>
      simp only [List.getElem?_cons_succ]
      rw [ih]
      cases hg : rest[i]? with
      | none => simp
      | some g2 =>
        simp only [Option.map_some', cumulativeAt_cons_succ]
        split_ifs <;> simp <;> omega

lemma simulateAux_length (rate : ℚ) (goals : List Goal) (c : ℕ) :
    (simulateAux rate goals c).length = goals.length := by
  induction goals generalizing c with
  | nil => simp [simulateAux]
  | cons g rest ih =>
    rw [simulateAux_cons]
    simp [ih]

/-! Small-list sort evaluation helpers and a computable ceiling bound. -/

lemma pair_perm_cases {α : Type} {l : List α} {a b : α} (h : l.Perm [a, b]) :
    l = [a, b] ∨ l = [b, a] := by
  have hlen : l.length = 2 := by simpa using h.length_eq
  match l, hlen with
  | [u, v], _ =>
    have hu : u = a ∨ u = b := by
      have : u ∈ [a, b] := h.subset (by simp)
      simpa using this
    rcases hu with rfl | rfl
    · left
      have hv : [v].Perm [b] := h.cons_inv
      simp [List.perm_singleton] at hv
      rw [hv]
    · right
      have hbv : [u, v].Perm [u, a] := h.trans (List.Perm.swap u a [])
      have hv : [v].Perm [a] := hbv.cons_inv
      simp [List.perm_singleton] at hv
      rw [hv]

lemma sortGoals_pair_swap {a b : Goal} (h : goalLE a b = false) :
    sortGoals [a, b] = [b, a] := by
  rcases pair_perm_cases (sortGoals_perm [a, b]) with hc | hc
  · exfalso
    have hs := sortGoals_sorted [a, b]
    rw [hc] at hs
    simp [List.pairwise_cons] at hs
    rw [hs] at h
    simp at h
  · exact hc

lemma ceil_toNat_of_bounds {q : ℚ} {n : ℕ} (h1 : (n : ℚ) - 1 < q)
    (h2 : q ≤ (n : ℚ)) : (⌈q⌉).toNat = n := by
  have hc : ⌈q⌉ = (n : ℤ) := by
    rw [Int.ceil_eq_iff]
    constructor
    · push_cast
      exact h1
    · push_cast
      exact h2
  rw [hc, Int.toNat_natCast]

/-! Concrete goals used by counterexamples and witnesses. -/

/-- Concrete goal with a deadline (epoch 0) and 500 remaining. -/
def deadlinedUnmetGoal : Goal :=
  { id := "g-deadlined", name := "Deadlined", targetAmount := 500,
    currentAmount := 0, deadline := some 0, priority := none }

/-- Concrete goal that is already fully funded and has no deadline. -/
def metNoDeadlineGoal : Goal :=
  { id := "g-met", name := "Met", targetAmount := 100, currentAmount := 100,
    deadline := none, priority := none }

/-- Concrete unmet goal without a deadline (300 remaining). -/
def secondUnmetGoal : Goal :=
  { id := "g-unmet2", name := "Second unmet", targetAmount := 300,
    currentAmount := 0, deadline := none, priority := none }

/-- Concrete goal with no explicit priority. -/
def noPriorityGoal : Goal :=
  { id := "g-noprio", name := "No priority", targetAmount := 100,
    currentAmount := 0, deadline := none, priority := none }

/-- Concrete goal with explicit priority 1000, beyond the 999 sentinel. -/
def bigPriorityGoal : Goal :=
  { id := "g-bigprio", name := "Priority 1000", targetAmount := 100,
    currentAmount := 0, deadline := none, priority := some 1000 }

/-- Concrete goal, first of a pair with identical sort keys. -/
def tieGoalA : Goal :=
  { id := "tie-a", name := "Tie A", targetAmount := 100, currentAmount := 0,
    deadline := none, priority := some 1 }

/-- Concrete goal, second of a pair with identical sort keys. -/
def tieGoalB : Goal :=
  { id := "tie-b", name := "Tie B", targetAmount := 100, currentAmount := 0,
    deadline := none, priority := some 1 }

lemma remaining_deadlinedUnmetGoal : remaining deadlinedUnmetGoal = 500 := by
  rw [remaining, show deadlinedUnmetGoal.targetAmount -
      deadlinedUnmetGoal.currentAmount = 500 by norm_num [deadlinedUnmetGoal],
    max_eq_right (by norm_num : (0 : ℚ) ≤ 500)]

lemma remaining_metNoDeadlineGoal : remaining metNoDeadlineGoal = 0 := by
  rw [remaining, show metNoDeadlineGoal.targetAmount -
      metNoDeadlineGoal.currentAmount = 0 by norm_num [metNoDeadlineGoal],
    max_self]

lemma remaining_secondUnmetGoal : remaining secondUnmetGoal = 300 := by
  rw [remaining, show secondUnmetGoal.targetAmount -
      secondUnmetGoal.currentAmount = 300 by norm_num [secondUnmetGoal],
    max_eq_right (by norm_num : (0 : ℚ) ≤ 300)]

lemma goalCost_deadlinedUnmetGoal : goalCost 100 deadlinedUnmetGoal = 5 := by
  unfold goalCost
  rw [remaining_deadlinedUnmetGoal,
    if_pos (⟨by norm_num, by norm_num⟩ : (0 : ℚ) < 500 ∧ (0 : ℚ) < 100)]
  exact ceil_toNat_of_bounds (by norm_num) (by norm_num)

lemma goalCost_secondUnmetGoal : goalCost 100 secondUnmetGoal = 3 := by
  unfold goalCost
  rw [remaining_secondUnmetGoal,
    if_pos (⟨by norm_num, by norm_num⟩ : (0 : ℚ) < 300 ∧ (0 : ℚ) < 100)]
  exact ceil_toNat_of_bounds (by norm_num) (by norm_num)

/-! C1: the sequential funding simulator. -/

/-- C1: for every goal list and rate, the simulator yields one epoch entry
per goal; the entry for the goal at index i is its id paired with: epoch 0
when its remaining is non-positive, the unreachable sentinel when the rate
is non-positive, and otherwise the new value of the cumulative counter,
namely the counter accumulated over the previous goals plus this goal's
ceiling of remaining over rate.  The counter starts at 0, is advanced by
exactly the recorded cost of each goal in turn, and already-met and
sentinel goals have cost 0 (the counter does not advance for them). -/
theorem simulator_waterfall_spec (sortedGoals : List Goal)
    (amountPerPeriod : ℚ) :
    (simulate sortedGoals amountPerPeriod).length = sortedGoals.length ∧
    cumulativeAt sortedGoals amountPerPeriod 0 = 0 ∧
    (∀ i : ℕ,
      (simulate sortedGoals amountPerPeriod)[i]? =
        sortedGoals[i]?.map fun g =>
          (g.id,
            if remaining g ≤ 0 then some 0
            else if amountPerPeriod ≤ 0 then none
            else some (cumulativeAt sortedGoals amountPerPeriod i +
              goalCost amountPerPeriod g))) ∧
    (∀ i : ℕ,
      cumulativeAt sortedGoals amountPerPeriod (i + 1) =
        cumulativeAt sortedGoals amountPerPeriod i +
          (match sortedGoals[i]? with
           | some g => goalCost amountPerPeriod g
           | none => 0)) ∧
    (∀ g : Goal, 0 < remaining g → 0 < amountPerPeriod →
      (goalCost amountPerPeriod g : ℤ) = ⌈remaining g / amountPerPeriod⌉) ∧
    (∀ g : Goal, remaining g ≤ 0 ∨ amountPerPeriod ≤ 0 →
      goalCost amountPerPeriod g = 0) := by
  refine ⟨simulateAux_length _ _ _, cumulativeAt_zero _ _, ?_,
    cumulativeAt_succ sortedGoals amountPerPeriod, ?_, ?_⟩
  · intro i
    simpa [simulate] using simulateAux_getElem amountPerPeriod sortedGoals 0 i
  · intro g hg hr
    rw [goalCost, if_pos ⟨hg, hr⟩,
      Int.toNat_of_nonneg (le_of_lt (Int.ceil_pos.mpr (div_pos hg hr)))]
  · intro g hg
    have hcond : ¬ (0 < remaining g ∧ 0 < amountPerPeriod) := by
      rcases hg with hg | hg
      · exact fun hc => absurd hc.1 (not_lt.mpr hg)
      · exact fun hc => absurd hc.2 (not_lt.mpr hg)
    simp [goalCost, hcond]

/-- Witness for C1 at a concrete goal and rate. -/
theorem simulator_waterfall_spec_witness :
    0 < remaining deadlinedUnmetGoal ∧ 0 < (100 : ℚ) ∧
    (goalCost 100 deadlinedUnmetGoal : ℤ) =
      ⌈remaining deadlinedUnmetGoal / 100⌉ := by
  have h1 : 0 < remaining deadlinedUnmetGoal := by
    rw [remaining_deadlinedUnmetGoal]; norm_num
  exact ⟨h1, by norm_num,
    (simulator_waterfall_spec [] 100).2.2.2.2.1 deadlinedUnmetGoal h1
      (by norm_num)⟩

/-! C2: the goal sorting policy. -/

/-- The precedence relation as the specification words the three keys: (1)
deadline presence, then earlier deadline; (2) on ties, smaller priority key
(the 999 sentinel standing for an absent priority); (3) on ties, smaller
remaining amount. -/
def claimPrecedes (a b : Goal) : Prop :=
  (a.deadline.isSome = true ∧ b.deadline = none) ∨
  (∃ da db, a.deadline = some da ∧ b.deadline = some db ∧ da < db) ∨
  (a.deadline = b.deadline ∧ priorityKey a < priorityKey b) ∨
  (a.deadline = b.deadline ∧ priorityKey a = priorityKey b ∧
    remaining a < remaining b)

lemma claimPrecedes_iff (a b : Goal) :
    claimPrecedes a b ↔ sortKey a < sortKey b := by
  cases hda : a.deadline with
  | none =>
    cases hdb : b.deadline with
    | none =>
      simp [claimPrecedes, sortKey, deadlinePresenceKey, deadlineValueKey,
        hda, hdb, Prod.Lex.lt_iff]
    | some db =>
      simp [claimPrecedes, sortKey, deadlinePresenceKey, deadlineValueKey,
        hda, hdb, Prod.Lex.lt_iff]
  | some da =>
    cases hdb : b.deadline with
    | none =>
      simp [claimPrecedes, sortKey, deadlinePresenceKey, deadlineValueKey,
        hda, hdb, Prod.Lex.lt_iff]
    | some db =>
      simp [claimPrecedes, sortKey, deadlinePresenceKey, deadlineValueKey,
        hda, hdb, Prod.Lex.lt_iff]
      tauto

/-- C2 (amended): the comparator orders a strictly before b exactly by the
three-key precedence (deadline presence and earlier value; then the
priority key with the 999 sentinel for an absent priority; then smaller
remaining), and the sort is a stable deterministic realisation of it: the
output is a permutation of the input, no later element strictly precedes an
earlier one, and a pair of key-equal elements keeps its input order. -/
theorem goal_sort_spec :
    (∀ a b : Goal, compareGoals a b = .lt ↔ claimPrecedes a b) ∧
    (∀ goals : List Goal,
      (sortGoals goals).Perm goals ∧
      (sortGoals goals).Pairwise (fun a b => ¬ claimPrecedes b a) ∧
      (∀ a b : Goal, [a, b].Sublist goals → compareGoals a b = .eq →
        [a, b].Sublist (sortGoals goals))) := by
  constructor
  · intro a b
    rw [compareGoals_lt_iff, claimPrecedes_iff]
  · intro goals
    refine ⟨sortGoals_perm goals, ?_, ?_⟩
    · refine (sortGoals_sorted goals).imp ?_
      intro a b hab
      rw [claimPrecedes_iff]
      exact not_lt.mpr ((goalLE_iff a b).mp hab)
    · intro a b hsub heq
      refine sortGoals_stable hsub ?_
      rw [goalLE_iff]
      exact le_of_eq ((compareGoals_eq_iff a b).mp heq)

/-- Witness for C2: a concrete key-equal pair keeps its input order in the
sorted output. -/
theorem goal_sort_spec_witness :
    [tieGoalA, tieGoalB].Sublist [tieGoalA, tieGoalB] ∧
    compareGoals tieGoalA tieGoalB = .eq ∧
    [tieGoalA, tieGoalB].Sublist (sortGoals [tieGoalA, tieGoalB]) := by
  have hsub : [tieGoalA, tieGoalB].Sublist [tieGoalA, tieGoalB] :=
    List.Sublist.refl _
  have heq : compareGoals tieGoalA tieGoalB = .eq := by
    simp [compareGoals, comparePriorityRemaining, tieGoalA, tieGoalB,
      remaining]
  exact ⟨hsub, heq,
    (goal_sort_spec.2 [tieGoalA, tieGoalB]).2.2 tieGoalA tieGoalB hsub heq⟩

/-- Counterexample for C2 as frozen: the sentinel is the number 999, so a
goal with the explicit priority 1000 is ranked below a goal with no
priority at all, although the claim says an explicit priority always
out-ranks an absent one. -/
theorem goal_sort_counterexample :
    noPriorityGoal.priority = none ∧
    bigPriorityGoal.priority = some 1000 ∧
    sortGoals [bigPriorityGoal, noPriorityGoal] =
      [noPriorityGoal, bigPriorityGoal] :=
  ⟨rfl, rfl, sortGoals_pair_swap (by rfl)⟩

/-! C6: waterfall monotonicity. -/

/-- Epoch comparison with none as the Infinity sentinel. -/
def epochLeB : Option ℕ → Option ℕ → Bool
  | _, none => true
  | none, some _ => false
  | some m, some n => m ≤ n

/-- Adjacent-pairs monotonicity of a list of completion epochs. -/
def epochsNondecreasing : List (Option ℕ) → Bool
  | [] => true
  | [_] => true
  | a :: b :: rest => epochLeB a b && epochsNondecreasing (b :: rest)

lemma simulate_two_goal_eval :
    simulate [deadlinedUnmetGoal, metNoDeadlineGoal] 100 =
      [("g-deadlined", some 5), ("g-met", some 0)] := by
  have h1 : ¬ remaining deadlinedUnmetGoal ≤ 0 := by
    rw [remaining_deadlinedUnmetGoal]; norm_num
  have h2 : remaining metNoDeadlineGoal ≤ 0 := le_of_eq remaining_metNoDeadlineGoal
  have h3 : ¬ ((100 : ℚ) ≤ 0) := by norm_num
  rw [simulate, simulateAux_cons, simulateAux_cons,
    if_neg h1, if_neg h3, if_pos h2, goalCost_deadlinedUnmetGoal]
  simp [simulateAux, deadlinedUnmetGoal, metNoDeadlineGoal]

/-- C6 (amended): among goals with positive remaining (the ones that
advance the counter) the recorded epochs are nondecreasing along the walked
list whenever the rate is positive; an already-met goal records epoch 0
wherever it sits, which is what breaks monotonicity of the full sequence. -/
theorem waterfall_monotonicity_amended
    (sortedGoals : List Goal) (amountPerPeriod : ℚ) (i j : ℕ) (gi gj : Goal)
    (hij : i ≤ j)
    (hgi : sortedGoals[i]? = some gi) (hgj : sortedGoals[j]? = some gj) :
    (remaining gi = 0 →
      (simulate sortedGoals amountPerPeriod)[i]? = some (gi.id, some 0)) ∧
    (0 < amountPerPeriod → 0 < remaining gi → 0 < remaining gj →
      ∃ ni nj,
        (simulate sortedGoals amountPerPeriod)[i]? = some (gi.id, some ni) ∧
        (simulate sortedGoals amountPerPeriod)[j]? = some (gj.id, some nj) ∧
        ni ≤ nj) := by
  constructor
  · intro h0
    have hc := simulateAux_getElem amountPerPeriod sortedGoals 0 i
    rw [hgi] at hc
    simp only [Option.map_some'] at hc
    rw [simulate, hc, if_pos (le_of_eq h0)]
  · intro hr h1 h2
    have hci := simulateAux_getElem amountPerPeriod sortedGoals 0 i
    have hcj := simulateAux_getElem amountPerPeriod sortedGoals 0 j
    rw [hgi] at hci
    rw [hgj] at hcj
    simp only [Option.map_some'] at hci hcj
    rw [if_neg (not_le.mpr h1), if_neg (not_le.mpr hr)] at hci
    rw [if_neg (not_le.mpr h2), if_neg (not_le.mpr hr)] at hcj
    refine ⟨_, _, by rw [simulate]; exact hci, by rw [simulate]; exact hcj, ?_⟩
    have hstep : cumulativeAt sortedGoals amountPerPeriod (i + 1) =
        cumulativeAt sortedGoals amountPerPeriod i +
          goalCost amountPerPeriod gi := by
      rw [cumulativeAt_succ, hgi]
    rcases Nat.lt_or_ge i j with hlt | hge
    · have hmono := cumulativeAt_mono sortedGoals amountPerPeriod
        (Nat.succ_le_of_lt hlt)
      rw [hstep] at hmono
      omega
    · have hij2 : i = j := le_antisymm hij hge
      subst hij2
      have hgg : gi = gj := by
        rw [hgi] at hgj
        exact Option.some.inj hgj
      subst hgg
      omega

/-- Witness for C6 (amended) at two concrete unmet goals. -/
theorem waterfall_monotonicity_amended_witness :
    0 < (100 : ℚ) ∧ 0 < remaining deadlinedUnmetGoal ∧
    0 < remaining secondUnmetGoal ∧
    ∃ ni nj,
      (simulate [deadlinedUnmetGoal, secondUnmetGoal] 100)[0]? =
        some (deadlinedUnmetGoal.id, some ni) ∧
      (simulate [deadlinedUnmetGoal, secondUnmetGoal] 100)[1]? =
        some (secondUnmetGoal.id, some nj) ∧
      ni ≤ nj := by
  have h1 : 0 < remaining deadlinedUnmetGoal := by
    rw [remaining_deadlinedUnmetGoal]; norm_num
  have h2 : 0 < remaining secondUnmetGoal := by
    rw [remaining_secondUnmetGoal]; norm_num
  exact ⟨by norm_num, h1, h2,
    (waterfall_monotonicity_amended [deadlinedUnmetGoal, secondUnmetGoal] 100
      0 1 deadlinedUnmetGoal secondUnmetGoal (by omega) rfl rfl).2
      (by norm_num) h1 h2⟩

/-- Counterexample for C6 as frozen: with the sorted pair (unmet goal with
a deadline, already-met goal without one) and rate 100, the recorded epochs
are 5 then 0, so an epoch is strictly below the epoch of the goal before
it. -/
theorem waterfall_monotonicity_counterexample :
    sortGoals [deadlinedUnmetGoal, metNoDeadlineGoal] =
      [deadlinedUnmetGoal, metNoDeadlineGoal] ∧
    (simulate (sortGoals [deadlinedUnmetGoal, metNoDeadlineGoal]) 100).map
      Prod.snd = [some 5, some 0] ∧
    epochsNondecreasing
      ((simulate (sortGoals [deadlinedUnmetGoal, metNoDeadlineGoal]) 100).map
        Prod.snd) = false := by
  have hsort : sortGoals [deadlinedUnmetGoal, metNoDeadlineGoal] =
      [deadlinedUnmetGoal, metNoDeadlineGoal] := sortGoals_pair (by rfl)
  rw [hsort, simulate_two_goal_eval]
  exact ⟨rfl, rfl, rfl⟩

/-! C5: the deadline evaluator's stand-alone required rate. -/

lemma remaining_pos_iff (g : Goal) :
    0 < remaining g ↔ g.currentAmount < g.targetAmount := by
  rw [remaining, lt_max_iff]
  constructor
  · rintro (h | h)
    · exact absurd h (lt_irrefl 0)
    · linarith
  · intro h
    right
    linarith

lemma evaluateGoal_requiredPerPeriod_none (now : ℤ)
    (epochs : List (String × Option ℕ)) (goal : Goal)
    (h : goal.deadline = none) :
    (evaluateGoal now epochs goal).requiredPerPeriod = none := by
  simp [evaluateGoal, h]

lemma evaluateGoal_deadlineMet_none (now : ℤ)
    (epochs : List (String × Option ℕ)) (goal : Goal)
    (h : goal.deadline = none) :
    (evaluateGoal now epochs goal).deadlineMet = none := by
  simp [evaluateGoal, h]

lemma evaluateGoal_requiredPerPeriod_some (now : ℤ)
    (epochs : List (String × Option ℕ)) (goal : Goal) (dl : ℤ)
    (h : goal.deadline = some dl) :
    (evaluateGoal now epochs goal).requiredPerPeriod =
      some (if 0 < periodsBetween dl now then
          .amount (remaining goal / (periodsBetween dl now : ℚ))
        else if goal.currentAmount < goal.targetAmount then .infinite
        else .amount 0) := by
  simp [evaluateGoal, h]

/-- C5: the stand-alone required rate never depends on the simulated epochs;
with a valid deadline it is remaining/periodsToDeadline for a strictly
future deadline, the infeasible sentinel for a past-or-now deadline with
positive remaining, and 0 for a past-or-now deadline with no remaining;
with no valid deadline it is null. -/
theorem deadline_evaluator_spec (now : ℤ)
    (epochs : List (String × Option ℕ)) (goal : Goal) :
    (∀ epochs2,
      (evaluateGoal now epochs goal).requiredPerPeriod =
        (evaluateGoal now epochs2 goal).requiredPerPeriod) ∧
    (∀ dl, goal.deadline = some dl →
      (evaluateGoal now epochs goal).requiredPerPeriod =
        (if 0 < periodsBetween dl now then
          some (.amount (remaining goal / (periodsBetween dl now : ℚ)))
        else if 0 < remaining goal then some .infinite
        else some (.amount 0))) ∧
    (goal.deadline = none →
      (evaluateGoal now epochs goal).requiredPerPeriod = none) := by
  refine ⟨?_, ?_, evaluateGoal_requiredPerPeriod_none now epochs goal⟩
  · intro epochs2
    cases h : goal.deadline with
    | none =>
      rw [evaluateGoal_requiredPerPeriod_none now epochs goal h,
        evaluateGoal_requiredPerPeriod_none now epochs2 goal h]
    | some dl =>
      rw [evaluateGoal_requiredPerPeriod_some now epochs goal dl h,
        evaluateGoal_requiredPerPeriod_some now epochs2 goal dl h]
  · intro dl h
    rw [evaluateGoal_requiredPerPeriod_some now epochs goal dl h]
    by_cases h1 : 0 < periodsBetween dl now
    · simp [h1]
    · by_cases h2 : goal.currentAmount < goal.targetAmount
      · simp [h1, h2, (remaining_pos_iff goal).mpr h2]
      · have hnr : ¬ 0 < remaining goal :=
          fun hc => absurd ((remaining_pos_iff goal).mp hc) h2
        simp [h1, h2, hnr]

/-- Witness for C5 at a concrete goal with a deadline, evaluated against
two different epoch maps. -/
theorem deadline_evaluator_spec_witness :
    deadlinedUnmetGoal.deadline = some 0 ∧
    (evaluateGoal (-5) [] deadlinedUnmetGoal).requiredPerPeriod =
      (if 0 < periodsBetween 0 (-5) then
        some (.amount (remaining deadlinedUnmetGoal /
          (periodsBetween 0 (-5) : ℚ)))
      else if 0 < remaining deadlinedUnmetGoal then some .infinite
      else some (.amount 0)) ∧
    (evaluateGoal (-5) [] deadlinedUnmetGoal).requiredPerPeriod =
      (evaluateGoal (-5) [("g-deadlined", some 3)]
        deadlinedUnmetGoal).requiredPerPeriod :=
  ⟨rfl, (deadline_evaluator_spec (-5) [] deadlinedUnmetGoal).2.1 0 rfl,
    (deadline_evaluator_spec (-5) [] deadlinedUnmetGoal).1
      [("g-deadlined", some 3)]⟩

/-! C4: the verdict aggregator. -/

/-- The fold of computeVerdict: sum of the finite, non-null
requiredPerPeriod values. -/
def requiredSum (results : List AllocationResult) : ℚ :=
  results.foldl
    (fun sum r =>
      match r.requiredPerPeriod with
      | some (.amount q) => sum + q
      | _ => sum) 0

/-- The finite required rate of one result, none when null or infinite. -/
def finiteRequired (r : AllocationResult) : Option ℚ :=
  match r.requiredPerPeriod with
  | some (.amount q) => some q
  | _ => none

lemma requiredSum_foldl (results : List AllocationResult) (s : ℚ) :
    results.foldl
      (fun sum r =>
        match r.requiredPerPeriod with
        | some (.amount q) => sum + q
        | _ => sum) s =
      s + (results.filterMap finiteRequired).sum := by
  induction results generalizing s with
  | nil => simp
  | cons r rest ih =>
    cases hr : r.requiredPerPeriod with
    | none => simp [List.foldl_cons, hr, ih, finiteRequired]
    | some req =>
      cases req with
      | amount q =>
        simp [List.foldl_cons, hr, ih, finiteRequired]
        ring
      | infinite => simp [List.foldl_cons, hr, ih, finiteRequired]

lemma requiredSum_eq (results : List AllocationResult) :
    requiredSum results = (results.filterMap finiteRequired).sum := by
  rw [requiredSum, requiredSum_foldl]
  ring

lemma computeVerdict_allMetOnTime (results : List AllocationResult)
    (rate : ℚ) :
    (computeVerdict results rate).allMetOnTime =
      !(results.any fun r => r.deadlineMet == some false) := rfl

lemma computeVerdict_shape (results : List AllocationResult) (rate : ℚ) :
    computeVerdict results rate =
      if (results.any fun r => r.deadlineMet == some false) then
        { allMetOnTime := false,
          additionalSavingsNeeded := some (max 0 (requiredSum results - rate)) }
      else { allMetOnTime := true, additionalSavingsNeeded := none } := by
  unfold computeVerdict requiredSum
  cases h : results.any fun r => r.deadlineMet == some false <;> simp [h]

/-- C4: allMetOnTime holds exactly when no per-goal result has deadlineMet
false; in that case additionalSavingsNeeded is null, and otherwise it is
max(0, T - amountPerPeriod) where T sums the finite non-null
requiredPerPeriod values — which are exactly the deadline-bearing results,
since the evaluator returns a null requiredPerPeriod precisely for goals
without a valid deadline.  In particular, when no goal has a deadline the
whole projection returns the all-met verdict with a null shortfall. -/
theorem verdict_aggregator_spec (results : List AllocationResult)
    (amountPerPeriod : ℚ) :
    ((computeVerdict results amountPerPeriod).allMetOnTime = true ↔
      ∀ r ∈ results, r.deadlineMet ≠ some false) ∧
    ((computeVerdict results amountPerPeriod).allMetOnTime = true →
      (computeVerdict results amountPerPeriod).additionalSavingsNeeded =
        none) ∧
    ((∃ r ∈ results, r.deadlineMet = some false) →
      (computeVerdict results amountPerPeriod).additionalSavingsNeeded =
        some (max 0
          ((results.filterMap finiteRequired).sum - amountPerPeriod))) ∧
    (∀ (now : ℤ) (epochs : List (String × Option ℕ)) (g : Goal),
      (evaluateGoal now epochs g).requiredPerPeriod = none ↔
        g.deadline = none) ∧
    (∀ (now : ℤ) (goals : List Goal) (amt : ℚ), 0 < amt →
      (∀ g ∈ goals, g.deadline = none) →
      handleCalculate now goals (some amt) =
        some (goals.map (evaluateGoal now (simulate (sortGoals goals) amt)),
          { allMetOnTime := true, additionalSavingsNeeded := none })) := by
  refine ⟨?_, ?_, ?_, ?_, ?_⟩
  · rw [computeVerdict_allMetOnTime, Bool.not_eq_true', List.any_eq_false]
    simp [beq_iff_eq]
  · intro h
    rw [computeVerdict_allMetOnTime, Bool.not_eq_true'] at h
    rw [computeVerdict_shape, if_neg (by simp [h])]
  · rintro ⟨r, hr, hdm⟩
    have hany : (results.any fun r => r.deadlineMet == some false) = true :=
      List.any_eq_true.mpr ⟨r, hr, by simp [hdm]⟩
    rw [computeVerdict_shape, if_pos (by simp [hany]), requiredSum_eq]
  · intro now epochs g
    cases hd : g.deadline with
    | none =>
      simp [evaluateGoal_requiredPerPeriod_none now epochs g hd, hd]
    | some dl =>
      rw [evaluateGoal_requiredPerPeriod_some now epochs g dl hd]
      simp [hd]
  · intro now goals amt hamt hnone
    have hres : ∀ r ∈ goals.map
        (evaluateGoal now (simulate (sortGoals goals) amt)),
        r.deadlineMet ≠ some false := by
      intro r hr
      rcases List.mem_map.mp hr with ⟨g, hg, rfl⟩
      rw [evaluateGoal_deadlineMet_none _ _ _ (hnone g hg)]
      simp
    have hany : ((goals.map
        (evaluateGoal now (simulate (sortGoals goals) amt))).any
          fun r => r.deadlineMet == some false) = false :=
      List.any_eq_false.mpr fun r hr => by
        simpa [beq_iff_eq] using hres r hr
    simp only [handleCalculate]
    rw [if_neg (not_le.mpr hamt)]
    rw [computeVerdict_shape, if_neg (by simp [hany])]

/-- Concrete result that missed its deadline, with a finite required rate. -/
def missedResult : AllocationResult :=
  { goalId := "r1", goalName := "R1",
    requiredPerPeriod := some (.amount 120), projectedPeriods := some 3,
    projectedDate := some 3, deadline := some 1, deadlineMet := some false,
    timeDifference := .behind 2 }

/-- Witness for C4 at a concrete missed result and at a concrete
deadline-free projection run. -/
theorem verdict_aggregator_spec_witness :
    ((∃ r ∈ [missedResult], r.deadlineMet = some false) ∧
      (computeVerdict [missedResult] 100).additionalSavingsNeeded =
        some (max 0 (([missedResult].filterMap finiteRequired).sum - 100))) ∧
    (0 < (100 : ℚ) ∧ (∀ g ∈ [noPriorityGoal], g.deadline = none) ∧
      handleCalculate 0 [noPriorityGoal] (some 100) =
        some ([noPriorityGoal].map
            (evaluateGoal 0 (simulate (sortGoals [noPriorityGoal]) 100)),
          { allMetOnTime := true, additionalSavingsNeeded := none })) := by
  have hex : ∃ r ∈ [missedResult], r.deadlineMet = some false :=
    ⟨missedResult, by simp, rfl⟩
  have hnone : ∀ g ∈ [noPriorityGoal], g.deadline = none := by
    intro g hg
    rcases List.mem_singleton.mp hg with rfl
    rfl
  exact ⟨⟨hex, (verdict_aggregator_spec [missedResult] 100).2.2.1 hex⟩,
    ⟨by norm_num, hnone,
      (verdict_aggregator_spec [] 0).2.2.2.2 0 [noPriorityGoal] 100
        (by norm_num) hnone⟩⟩

/-! C10: an already-funded goal whose deadline has passed. -/

lemma simulateAux_lookup_met (rate : ℚ) {goals : List Goal} {g : Goal}
    (c : ℕ) (hnodup : (goals.map Goal.id).Nodup) (hg : g ∈ goals)
    (hmet : remaining g = 0) :
    (simulateAux rate goals c).lookup g.id = some (some 0) := by
  induction goals generalizing c with
  | nil => cases hg
  | cons g0 rest ih =>
    rw [simulateAux_cons]
    rcases List.mem_cons.mp hg with rfl | hgr
    · rw [if_pos (le_of_eq hmet)]
      simp [List.lookup]
    · have hne : g.id ≠ g0.id := by
        intro he
        have : g0.id ∈ rest.map Goal.id :=
          he ▸ List.mem_map_of_mem Goal.id hgr
        exact (List.nodup_cons.mp (by simpa using hnodup)).1 this
      have hbeq : (g.id == g0.id) = false := beq_eq_false_iff_ne.mpr hne
      simp only [List.lookup, hbeq]
      exact ih _ (List.nodup_cons.mp (by simpa using hnodup)).2 hgr

/-- C10: a goal with currentAmount at or above targetAmount whose valid
deadline lies strictly before now gets projectedPeriods 0, projectedDate
equal to now, and deadlineMet false, and its presence forces the verdict's
allMetOnTime to false. -/
theorem overdue_met_goal_spec (now : ℤ) (goals : List Goal) (amt : ℚ)
    (g : Goal) (dl : ℤ)
    (hnodup : (goals.map Goal.id).Nodup)
    (hg : g ∈ goals) (hmet : g.targetAmount ≤ g.currentAmount)
    (hdl : g.deadline = some dl) (hpast : dl < now) (hamt : 0 < amt) :
    (evaluateGoal now (simulate (sortGoals goals) amt) g).projectedPeriods =
      some 0 ∧
    (evaluateGoal now (simulate (sortGoals goals) amt) g).projectedDate =
      some now ∧
    (evaluateGoal now (simulate (sortGoals goals) amt) g).deadlineMet =
      some false ∧
    (∀ results v, handleCalculate now goals (some amt) = some (results, v) →
      v.allMetOnTime = false) := by
  have hrem : remaining g = 0 := by
    rw [remaining, max_eq_left (by linarith)]
  have hsortmem : g ∈ sortGoals goals := (sortGoals_perm goals).mem_iff.mpr hg
  have hsortnodup : ((sortGoals goals).map Goal.id).Nodup :=
    (((sortGoals_perm goals).map Goal.id).nodup_iff).mpr hnodup
  have hlookup : (simulate (sortGoals goals) amt).lookup g.id =
      some (some 0) :=
    simulateAux_lookup_met amt 0 hsortnodup hsortmem hrem
  refine ⟨?_, ?_, ?_, ?_⟩
  · simp [evaluateGoal, hlookup, hdl]
  · simp [evaluateGoal, hlookup, hdl, addPeriods]
  · simp [evaluateGoal, hlookup, hdl, addPeriods, not_le.mpr hpast]
  · intro results v hcalc
    simp only [handleCalculate] at hcalc
    rw [if_neg (not_le.mpr hamt)] at hcalc
    have hpair := Option.some.inj hcalc
    injection hpair with hres hv
    subst hres
    subst hv
    have hmem : evaluateGoal now (simulate (sortGoals goals) amt) g ∈
        goals.map (evaluateGoal now (simulate (sortGoals goals) amt)) :=
      List.mem_map_of_mem _ hg
    have hdm : (evaluateGoal now (simulate (sortGoals goals) amt)
        g).deadlineMet = some false := by
      simp [evaluateGoal, hlookup, hdl, addPeriods, not_le.mpr hpast]
    have hany : ((goals.map
        (evaluateGoal now (simulate (sortGoals goals) amt))).any
          fun r => r.deadlineMet == some false) = true :=
      List.any_eq_true.mpr ⟨_, hmem, by simp [hdm]⟩
    rw [computeVerdict_allMetOnTime, hany]
    rfl

/-- Concrete goal already funded past its target, deadline in the past. -/
def overdueMetGoal : Goal :=
  { id := "g-overdue", name := "Overdue met", targetAmount := 200,
    currentAmount := 250, deadline := some 0, priority := none }

/-- Witness for C10 at a concrete overdue, already-funded goal. -/
theorem overdue_met_goal_spec_witness :
    ([overdueMetGoal].map Goal.id).Nodup ∧
    overdueMetGoal ∈ [overdueMetGoal] ∧
    overdueMetGoal.targetAmount ≤ overdueMetGoal.currentAmount ∧
    overdueMetGoal.deadline = some 0 ∧ (0 : ℤ) < 5 ∧ 0 < (100 : ℚ) ∧
    (evaluateGoal 5 (simulate (sortGoals [overdueMetGoal]) 100)
      overdueMetGoal).deadlineMet = some false := by
  have hmet : overdueMetGoal.targetAmount ≤ overdueMetGoal.currentAmount := by
    norm_num [overdueMetGoal]
  have h := overdue_met_goal_spec 5 [overdueMetGoal] 100 overdueMetGoal 0
    (by simp) (by simp) hmet rfl (by decide) (by norm_num)
  exact ⟨by simp, by simp, hmet, rfl, by decide, by norm_num, h.2.2.1⟩

/-! C3: the lump-sum allocator. -/

/-- The lump-sum plan as the specification describes it: walking the sorted
list, each goal receives the minimum of its remaining amount and the pool
left when it is reached, and the pool shrinks by that allocation. -/
def greedyPlan : List Goal → ℚ → List AllocationPlanItem
  | [], _ => []
  | goal :: rest, pool =>
    { goalId := goal.id, goalName := goal.name,
      amountToAllocate := min (remaining goal) pool,
      currentAmount := goal.currentAmount, targetAmount := goal.targetAmount } ::
      greedyPlan rest (pool - min (remaining goal) pool)

/-- Pool left when the goal at index i of the walked list is reached. -/
def poolAt : List Goal → ℚ → ℕ → ℚ
  | _, pool, 0 => pool
  | [], pool, _ + 1 => pool
  | goal :: rest, pool, i + 1 =>
    poolAt rest (pool - min (remaining goal) pool) i

lemma poolAt_zero_pool (goals : List Goal) (i : ℕ) : poolAt goals 0 i = 0 := by
  induction goals generalizing i with
  | nil => cases i <;> simp [poolAt]
  | cons g rest ih =>
    cases i with
    | zero => simp [poolAt]
    | succ i =>
      simp only [poolAt, min_eq_right (remaining_nonneg g)]
      simpa using ih i

lemma poolAt_nonneg (goals : List Goal) (pool : ℚ) (hpool : 0 ≤ pool)
    (i : ℕ) : 0 ≤ poolAt goals pool i := by
  induction goals generalizing pool i with
  | nil => cases i <;> simpa [poolAt]
  | cons g rest ih =>
    cases i with
    | zero => simpa [poolAt]
    | succ i =>
      simp only [poolAt]
      refine ih _ ?_ i
      have := min_le_right (remaining g) pool
      linarith

lemma greedyPlan_length (goals : List Goal) (pool : ℚ) :
    (greedyPlan goals pool).length = goals.length := by
  induction goals generalizing pool with
  | nil => simp [greedyPlan]
  | cons g rest ih => simp [greedyPlan, ih]

lemma greedyPlan_getElem (goals : List Goal) (pool : ℚ) (i : ℕ) :
    (greedyPlan goals pool)[i]? =
      goals[i]?.map fun g =>
        { goalId := g.id, goalName := g.name,
          amountToAllocate := min (remaining g) (poolAt goals pool i),
          currentAmount := g.currentAmount,
          targetAmount := g.targetAmount } := by
  induction goals generalizing pool i with
  | nil => simp [greedyPlan]
  | cons g rest ih =>
    cases i with
    | zero => simp [greedyPlan, poolAt]
    | succ i =>
      simp only [greedyPlan, List.getElem?_cons_succ, poolAt]
      exact ih _ _

lemma greedyPlan_sum_le (goals : List Goal) (pool : ℚ) (hpool : 0 ≤ pool) :
    ((greedyPlan goals pool).map (·.amountToAllocate)).sum ≤ pool := by
  induction goals generalizing pool with
  | nil => simpa [greedyPlan]
  | cons g rest ih =>
    simp only [greedyPlan, List.map_cons, List.sum_cons]
    have hmle : min (remaining g) pool ≤ pool := min_le_right _ _
    have hpool2 : 0 ≤ pool - min (remaining g) pool := by linarith
    have := ih _ hpool2
    linarith

lemma sum_remaining_nonneg (goals : List Goal) :
    0 ≤ (goals.map remaining).sum := by
  refine List.sum_nonneg ?_
  intro x hx
  rcases List.mem_map.mp hx with ⟨g, _, rfl⟩
  exact remaining_nonneg g

lemma greedyPlan_exact (goals : List Goal) (pool : ℚ)
    (hpool : pool = (goals.map remaining).sum) :
    (greedyPlan goals pool).map (·.amountToAllocate) = goals.map remaining := by
  induction goals generalizing pool with
  | nil => simp [greedyPlan]
  | cons g rest ih =>
    have hsum : 0 ≤ (rest.map remaining).sum := sum_remaining_nonneg rest
    have hmin : min (remaining g) pool = remaining g := by
      refine min_eq_left ?_
      rw [hpool, List.map_cons, List.sum_cons]
      linarith
    simp only [greedyPlan, List.map_cons, hmin]
    congr 1
    refine ih _ ?_
    rw [hpool, List.map_cons, List.sum_cons]
    ring

lemma poolAt_pos_full (goals : List Goal) (pool : ℚ) (hpool : 0 ≤ pool)
    {i j : ℕ} (hij : i < j) {gi : Goal} (hgi : goals[i]? = some gi)
    (hpos : 0 < poolAt goals pool j) :
    min (remaining gi) (poolAt goals pool i) = remaining gi := by
  induction goals generalizing pool i j with
  | nil => simp at hgi
  | cons g rest ih =>
    cases j with
    | zero => omega
    | succ j =>
      cases i with
      | zero =>
        have hg : g = gi := by simpa using hgi
        subst hg
        by_cases hle : remaining g ≤ pool
        · simp [poolAt, min_eq_left hle]
        · exfalso
          have hm : min (remaining g) pool = pool :=
            min_eq_right (le_of_not_le hle)
          have hz : poolAt (g :: rest) pool (j + 1) = poolAt rest 0 j := by
            simp [poolAt, hm]
          rw [hz, poolAt_zero_pool] at hpos
          exact lt_irrefl 0 hpos
      | succ i =>
        have hgi2 : rest[i]? = some gi := by simpa using hgi
        have hpool2 : 0 ≤ pool - min (remaining g) pool := by
          have := min_le_right (remaining g) pool
          linarith
        have hpos2 : 0 < poolAt rest (pool - min (remaining g) pool) j := by
          simpa [poolAt] using hpos
        have := ih _ hpool2 (by omega : i < j) hgi2 hpos2
        simpa [poolAt] using this

lemma allocateAux_eq_greedyPlan :
    ∀ (goals : List Goal) (bal : String → ℚ) (pool : ℚ),
      (goals.map Goal.id).Nodup →
      (∀ g ∈ goals, bal g.id = g.currentAmount) →
      0 ≤ pool →
      allocateAux goals bal pool = greedyPlan goals pool := by
  intro goals
  induction goals with
  | nil =>
    intro bal pool _ _ _
    simp [allocateAux, greedyPlan]
  | cons g rest ih =>
    intro bal pool hnodup hbal hpool
    have hbg : bal g.id = g.currentAmount := hbal g (by simp)
    have hneed : max 0 (g.targetAmount - bal g.id) = remaining g := by
      rw [hbg, remaining]
    have hnodup2 : (rest.map Goal.id).Nodup :=
      (List.nodup_cons.mp (by simpa using hnodup)).2
    have hgid : g.id ∉ rest.map Goal.id :=
      (List.nodup_cons.mp (by simpa using hnodup)).1
    simp only [allocateAux, hneed]
    by_cases hc : 0 < remaining g ∧ 0 < pool
    · rw [if_pos hc]
      simp only [greedyPlan]
      congr 1
      refine ih _ _ hnodup2 ?_ ?_
      · intro g2 hg2
        have hne : g2.id ≠ g.id := by
          intro he
          exact hgid (he ▸ List.mem_map_of_mem Goal.id hg2)
        rw [if_neg hne]
        exact hbal g2 (by simp [hg2])
      · have := min_le_right (remaining g) pool
        linarith
    · rw [if_neg hc]
      have hmin0 : min (remaining g) pool = 0 := by
        rcases not_and_or.mp hc with hr | hp
        · rw [(remaining_le_zero_iff g).mp (not_lt.mp hr)]
          exact min_eq_left hpool
        · have hp0 : pool = 0 := le_antisymm (not_lt.mp hp) hpool
          rw [hp0]
          exact min_eq_right (remaining_nonneg g)
      simp only [greedyPlan, hmin0, sub_zero]
      congr 1
      exact ih _ _ hnodup2 (fun g2 hg2 => hbal g2 (by simp [hg2])) hpool

/-- C3: under the data-model assumptions (unique ids, balances matching the
snapshots) and a positive amount, the greedy pass equals the
specification's min(remaining, pool-left) plan: one item per goal in order;
each item's allocation is min(remaining, pool when reached); the total
allocated never exceeds the amount; no item exceeds its goal's remaining; a
later goal receives a positive allocation only if every earlier goal was
fully funded; and when the amount equals the total remaining, every goal
receives exactly its remaining and the leftover is 0. -/
theorem lump_sum_allocator_spec (sortedGoals : List Goal) (bal : String → ℚ)
    (amount : ℚ)
    (hnodup : (sortedGoals.map Goal.id).Nodup)
    (hbal : ∀ g ∈ sortedGoals, bal g.id = g.currentAmount)
    (hamount : 0 < amount) :
    allocateAux sortedGoals bal amount = greedyPlan sortedGoals amount ∧
    (allocateAux sortedGoals bal amount).length = sortedGoals.length ∧
    (∀ i : ℕ, (allocateAux sortedGoals bal amount)[i]? =
      sortedGoals[i]?.map fun g =>
        { goalId := g.id, goalName := g.name,
          amountToAllocate := min (remaining g) (poolAt sortedGoals amount i),
          currentAmount := g.currentAmount,
          targetAmount := g.targetAmount }) ∧
    ((allocateAux sortedGoals bal amount).map
      (·.amountToAllocate)).sum ≤ amount ∧
    (∀ (i : ℕ) (g : Goal) (item : AllocationPlanItem),
      sortedGoals[i]? = some g →
      (allocateAux sortedGoals bal amount)[i]? = some item →
      item.amountToAllocate ≤ remaining g) ∧
    (∀ (i j : ℕ) (gi : Goal) (itemi itemj : AllocationPlanItem),
      i < j → sortedGoals[i]? = some gi →
      (allocateAux sortedGoals bal amount)[i]? = some itemi →
      (allocateAux sortedGoals bal amount)[j]? = some itemj →
      0 < itemj.amountToAllocate →
      itemi.amountToAllocate = remaining gi) ∧
    (amount = (sortedGoals.map remaining).sum →
      (allocateAux sortedGoals bal amount).map (·.amountToAllocate) =
        sortedGoals.map remaining ∧
      ((allocateAux sortedGoals bal amount).map
        (·.amountToAllocate)).sum = amount) := by
  have hpool : (0 : ℚ) ≤ amount := le_of_lt hamount
  have heq := allocateAux_eq_greedyPlan sortedGoals bal amount hnodup hbal
    hpool
  refine ⟨heq, ?_, ?_, ?_, ?_, ?_, ?_⟩
  · rw [heq, greedyPlan_length]
  · intro i
    rw [heq, greedyPlan_getElem]
  · rw [heq]
    exact greedyPlan_sum_le _ _ hpool
  · intro i g item hgi hitem
    rw [heq, greedyPlan_getElem, hgi] at hitem
    simp only [Option.map_some'] at hitem
    rw [← Option.some.inj hitem]
    exact min_le_left _ _
  · intro i j gi itemi itemj hij hgi hitemi hitemj hpos
    rw [heq, greedyPlan_getElem, hgi] at hitemi
    simp only [Option.map_some'] at hitemi
    rw [heq, greedyPlan_getElem] at hitemj
    cases hgj : sortedGoals[j]? with
    | none =>
      rw [hgj] at hitemj
      simp at hitemj
    | some gj =>
      rw [hgj] at hitemj
      simp only [Option.map_some'] at hitemj
      have hposj : 0 < poolAt sortedGoals amount j := by
        have hle : itemj.amountToAllocate ≤ poolAt sortedGoals amount j := by
          rw [← Option.some.inj hitemj]
          exact min_le_right _ _
        linarith
      have hfull := poolAt_pos_full sortedGoals amount hpool hij hgi hposj
      rw [← Option.some.inj hitemi]
      exact hfull
  · intro hsum
    refine ⟨by rw [heq]; exact greedyPlan_exact _ _ hsum, ?_⟩
    rw [heq, greedyPlan_exact _ _ hsum, ← hsum]

/-- Concrete Scenario B goal with 300 remaining. -/
def scenarioGoalA : Goal :=
  { id := "sb-a", name := "A", targetAmount := 300, currentAmount := 0,
    deadline := none, priority := none }

/-- Concrete Scenario B goal with 600 remaining. -/
def scenarioGoalB : Goal :=
  { id := "sb-b", name := "B", targetAmount := 600, currentAmount := 0,
    deadline := none, priority := none }

/-- Witness for C3 on the Scenario B goals with a 500 lump sum. -/
theorem lump_sum_allocator_spec_witness :
    ([scenarioGoalA, scenarioGoalB].map Goal.id).Nodup ∧ (0 : ℚ) < 500 ∧
    ((allocateAux [scenarioGoalA, scenarioGoalB]
        (initialBalances [scenarioGoalA, scenarioGoalB]) 500).map
      (·.amountToAllocate)).sum ≤ 500 := by
  have hnodup : ([scenarioGoalA, scenarioGoalB].map Goal.id).Nodup := by
    decide
  have hbal : ∀ g ∈ [scenarioGoalA, scenarioGoalB],
      initialBalances [scenarioGoalA, scenarioGoalB] g.id =
        g.currentAmount := by
    intro g hg
    rcases List.mem_cons.mp hg with rfl | hg2
    · rfl
    rcases List.mem_cons.mp hg2 with rfl | hg3
    · rfl
    cases hg3
  exact ⟨hnodup, by norm_num,
    (lump_sum_allocator_spec [scenarioGoalA, scenarioGoalB]
      (initialBalances [scenarioGoalA, scenarioGoalB]) 500 hnodup hbal
      (by norm_num)).2.2.2.1⟩

/-! C7: input validation. -/

/-- C7 (amended): projection mode rejects a missing or non-positive savings
amount before any computation; lump-sum mode rejects a missing or
non-positive amount and an empty goal list, setting an empty plan and not
opening the confirmation; but projection mode does not reject an empty goal
list — it runs and produces an empty results list together with a verdict
whose allMetOnTime is true and whose additionalSavingsNeeded is null. -/
theorem input_validation_amended :
    (∀ (now : ℤ) (goals : List Goal),
      handleCalculate now goals none = none) ∧
    (∀ (now : ℤ) (goals : List Goal) (amt : ℚ), amt ≤ 0 →
      handleCalculate now goals (some amt) = none) ∧
    (∀ s : ModalState, s.amountSaved = none →
      calculateAllocation s = { s with allocationPlan := some [] }) ∧
    (∀ (s : ModalState) (amt : ℚ), s.amountSaved = some amt →
      amt ≤ 0 ∨ s.goals = [] →
      calculateAllocation s = { s with allocationPlan := some [] }) ∧
    (∀ (now : ℤ) (amt : ℚ), 0 < amt →
      handleCalculate now [] (some amt) =
        some (([] : List AllocationResult),
          ({ allMetOnTime := true, additionalSavingsNeeded := none } :
            Verdict))) := by
  refine ⟨fun _ _ => rfl, ?_, ?_, ?_, ?_⟩
  · intro now goals amt h
    simp only [handleCalculate]
    rw [if_pos h]
  · intro s h
    simp [calculateAllocation, h]
  · intro s amt h hcond
    simp only [calculateAllocation, h]
    rw [if_pos]
    rcases hcond with hc | hc
    · exact Or.inl hc
    · exact Or.inr (by rw [hc]; rfl)
  · intro now amt h
    simp only [handleCalculate]
    rw [if_neg (not_le.mpr h)]
    simp [sortGoals, simulate, simulateAux, computeVerdict_shape]

/-- Witness for C7 (amended) at concrete rejected inputs. -/
theorem input_validation_amended_witness :
    ((0 : ℚ) ≤ 0 ∧ handleCalculate 3 [noPriorityGoal] (some 0) = none) ∧
    ((⟨[], some 0, none, false⟩ : ModalState).amountSaved = some 0 ∧
      calculateAllocation ⟨[], some 0, none, false⟩ =
        { (⟨[], some 0, none, false⟩ : ModalState) with
          allocationPlan := some [] }) :=
  ⟨⟨le_refl 0, input_validation_amended.2.1 3 [noPriorityGoal] 0 (le_refl 0)⟩,
    ⟨rfl, input_validation_amended.2.2.2.1 ⟨[], some 0, none, false⟩ 0 rfl
      (Or.inl (le_refl 0))⟩⟩

/-- Counterexample for C7 as frozen: with an empty goal list and a positive
rate the projection is not rejected; it produces an (empty) results list
and a verdict. -/
theorem input_validation_counterexample :
    handleCalculate 0 [] (some 100) =
      some (([] : List AllocationResult),
        ({ allMetOnTime := true, additionalSavingsNeeded := none } :
          Verdict)) := by
  simp only [handleCalculate]
  rw [if_neg (by norm_num)]
  simp [sortGoals, simulate, simulateAux, computeVerdict_shape]

/-! C8: the commit phase of a lump-sum plan. -/

/-- True for a settled outcome the loop counts as a failure. -/
def isFailure : SettledResult → Bool
  | .fulfilledOk => false
  | .fulfilledError _ => true
  | .rejected _ => true

/-- The message the loop would record for one failed outcome (with the
same fallback strings the code uses), none for a success. -/
def failureMessage : SettledResult → Option String
  | .fulfilledOk => none
  | .fulfilledError e => some (e.getD "Unknown allocation error.")
  | .rejected m =>
    some (m.getD "Network or unexpected error during allocation.")

lemma commit_foldl_counts (rs : List SettledResult) :
    ∀ acc : CommitSummary,
      (rs.foldl commitStep acc).successCount =
        acc.successCount + (rs.filter fun r => !(isFailure r)).length ∧
      (rs.foldl commitStep acc).errorCount =
        acc.errorCount + (rs.filter isFailure).length := by
  induction rs with
  | nil => simp
  | cons r rest ih =>
    intro acc
    cases r <;>
      simp [List.foldl_cons, commitStep, isFailure, (ih _).1, (ih _).2] <;>
      omega

lemma commit_foldl_msg (rs : List SettledResult) :
    ∀ acc : CommitSummary,
      (∀ m ∈ rs.filterMap failureMessage, m ≠ "") →
      (rs.foldl commitStep acc).firstErrorMessage =
        (if acc.firstErrorMessage = "" then
          (rs.filterMap failureMessage).headD ""
        else acc.firstErrorMessage) := by
  induction rs with
  | nil =>
    intro acc _
    split_ifs with h <;> simp [h]
  | cons r rest ih =>
    intro acc hne
    cases r with
    | fulfilledOk =>
      simp only [List.foldl_cons, commitStep]
      rw [ih _ (by simpa [failureMessage] using hne)]
      simp [failureMessage]
    | fulfilledError e =>
      have hm : e.getD "Unknown allocation error." ≠ "" := by
        refine hne _ ?_
        simp [failureMessage]
      have hne2 : ∀ m ∈ rest.filterMap failureMessage, m ≠ "" := by
        intro m hm2
        refine hne m ?_
        simp only [List.filterMap_cons, failureMessage]
        exact List.mem_cons_of_mem _ hm2
      simp only [List.foldl_cons, commitStep]
      by_cases hacc : acc.firstErrorMessage = ""
      · rw [ih _ hne2]
        simp [hacc, hm, failureMessage]
      · rw [ih _ hne2]
        simp [hacc, failureMessage]
    | rejected m0 =>
      have hm : m0.getD "Network or unexpected error during allocation." ≠
          "" := by
        refine hne _ ?_
        simp [failureMessage]
      have hne2 : ∀ m ∈ rest.filterMap failureMessage, m ≠ "" := by
        intro m hm2
        refine hne m ?_
        simp only [List.filterMap_cons, failureMessage]
        exact List.mem_cons_of_mem _ hm2
      simp only [List.foldl_cons, commitStep]
      by_cases hacc : acc.firstErrorMessage = ""
      · rw [ih _ hne2]
        simp [hacc, hm, failureMessage]
      · rw [ih _ hne2]
        simp [hacc, failureMessage]

lemma commit_foldl_total (rs : List SettledResult) :
    ∀ acc : CommitSummary,
      (rs.foldl commitStep acc).successCount +
        (rs.foldl commitStep acc).errorCount =
      acc.successCount + acc.errorCount + rs.length := by
  induction rs with
  | nil => simp
  | cons r rest ih =>
    intro acc
    cases r <;> simp [List.foldl_cons, commitStep, ih _] <;> omega

/-- C8: the caller issues exactly one add-contribution request per plan
item (same id and amount, in order); over the settled outcomes the loop
counts every success and every failure — the counts are the plain filter
lengths, they add up over any split of the outcome list, and together they
cover every item — and the reported first error message is the message of
the first failed outcome.  No outcome is processed more than once and a
failure never stops the counting of the remaining outcomes. -/
theorem commit_phase_spec (plan : List AllocationPlanItem)
    (outcomes : List SettledResult)
    (hlen : outcomes.length = plan.length)
    (hne : ∀ m ∈ outcomes.filterMap failureMessage, m ≠ "") :
    (issuedRequests plan).length = plan.length ∧
    (∀ i : ℕ, (issuedRequests plan)[i]? =
      plan[i]?.map fun item => (item.goalId, item.amountToAllocate)) ∧
    (processSettled outcomes).successCount =
      (outcomes.filter fun r => !(isFailure r)).length ∧
    (processSettled outcomes).errorCount =
      (outcomes.filter isFailure).length ∧
    (processSettled outcomes).successCount +
      (processSettled outcomes).errorCount = plan.length ∧
    (processSettled outcomes).firstErrorMessage =
      (outcomes.filterMap failureMessage).headD "" ∧
    (∀ pre post, outcomes = pre ++ post →
      (processSettled outcomes).errorCount =
        (processSettled pre).errorCount +
          (processSettled post).errorCount ∧
      (processSettled outcomes).successCount =
        (processSettled pre).successCount +
          (processSettled post).successCount) := by
  refine ⟨by simp [issuedRequests], ?_, ?_, ?_, ?_, ?_, ?_⟩
  · intro i
    simp [issuedRequests]
  · simpa [processSettled] using (commit_foldl_counts outcomes ⟨0, 0, ""⟩).1
  · simpa [processSettled] using (commit_foldl_counts outcomes ⟨0, 0, ""⟩).2
  · rw [← hlen]
    simpa using commit_foldl_total outcomes ⟨0, 0, ""⟩
  · have := commit_foldl_msg outcomes ⟨0, 0, ""⟩ hne
    simpa [processSettled] using this
  · intro pre post hsplit
    subst hsplit
    constructor
    · simp only [processSettled]
      rw [(commit_foldl_counts (pre ++ post) ⟨0, 0, ""⟩).2,
        (commit_foldl_counts pre ⟨0, 0, ""⟩).2,
        (commit_foldl_counts post ⟨0, 0, ""⟩).2]
      simp [List.filter_append]
    · simp only [processSettled]
      rw [(commit_foldl_counts (pre ++ post) ⟨0, 0, ""⟩).1,
        (commit_foldl_counts pre ⟨0, 0, ""⟩).1,
        (commit_foldl_counts post ⟨0, 0, ""⟩).1]
      simp [List.filter_append]

/-- Concrete three-item plan for the commit-phase witness. -/
def demoPlan : List AllocationPlanItem :=
  [{ goalId := "p1", goalName := "P1", amountToAllocate := 50,
     currentAmount := 0, targetAmount := 100 },
   { goalId := "p2", goalName := "P2", amountToAllocate := 30,
     currentAmount := 0, targetAmount := 60 },
   { goalId := "p3", goalName := "P3", amountToAllocate := 20,
     currentAmount := 0, targetAmount := 40 }]

/-- Concrete settled outcomes: one success, one server-action error, one
rejected promise. -/
def demoOutcomes : List SettledResult :=
  [.fulfilledOk, .fulfilledError (some "boom"), .rejected none]

/-- Witness for C8 on the concrete plan and outcomes. -/
theorem commit_phase_spec_witness :
    demoOutcomes.length = demoPlan.length ∧
    (∀ m ∈ demoOutcomes.filterMap failureMessage, m ≠ "") ∧
    (processSettled demoOutcomes).successCount +
      (processSettled demoOutcomes).errorCount = demoPlan.length :=
  ⟨rfl, by decide,
    (commit_phase_spec demoPlan demoOutcomes rfl (by decide)).2.2.2.2.1⟩

/-! C9: the engine does not mutate its inputs. -/

/-- C9: both state transformers leave the goals snapshot (and the entered
amounts) exactly as supplied — only the result fields are written — and the
sort works on a permuted copy rather than reordering the stored list. -/
theorem engine_preserves_inputs (now : ℤ) (s : AllocatorState)
    (m : ModalState) :
    (handleCalculateState now s).goals = s.goals ∧
    (handleCalculateState now s).savingsAmount = s.savingsAmount ∧
    (calculateAllocation m).goals = m.goals ∧
    (calculateAllocation m).amountSaved = m.amountSaved ∧
    (sortGoals s.goals).Perm s.goals ∧
    (sortGoals m.goals).Perm m.goals := by
  refine ⟨?_, ?_, ?_, ?_, sortGoals_perm _, sortGoals_perm _⟩
  · unfold handleCalculateState
    cases h : handleCalculate now s.goals s.savingsAmount with
    | none => rfl
    | some rv => cases rv; rfl
  · unfold handleCalculateState
    cases h : handleCalculate now s.goals s.savingsAmount with
    | none => rfl
    | some rv => cases rv; rfl
  · unfold calculateAllocation
    cases h : m.amountSaved with
    | none => rfl
    | some amt =>
      dsimp only
      split_ifs <;> rfl
  · unfold calculateAllocation
    cases h : m.amountSaved with
    | none => rfl
    | some amt =>
      dsimp only
      split_ifs <;> rfl

end SpendAI
